import Mathlib

/-!
Verification development for the gPROMS_helper analysis utilities.

The repository's recurring core is a variable-path record parser and
comparator (spec §2): scripts read line-oriented dumps of
`PathName : Value : LowerBound : UpperBound : Type : Units` records (or a
CSV variant), build mappings from path to record, and compare two such
mappings with absolute/relative tolerances.

This file gives a shallow embedding of the relevant functions:

* `parse_variables_csv`, `compare_dicts`  — src/analysis/scripts/app.py
* `match_and_sum_absorbents`, `build_comparisons` — src/analysis/scripts/test.py
* `read_all_values_from_txt`              — src/scripts/analyse.py
* `extract_stage_data`                    — src/analysis/scripts/co2_equilibrium.py
* `load_variable_order` and the row ordering of `write_txt_file`,
  `format_scientific_notation`            — src/scripts/concatenate.py

Modelling conventions:
* Python strings are `List Char` (`Str` below); Python string operations
  (`strip`, `split`, `in`, `startswith`, lexicographic `<`) are defined
  below, character by character, with CPython semantics.
* Python floats are modelled by exact rationals `ℚ`; `float(tok)` is
  `parsePyFloat`, which follows CPython's accepted token grammar
  (optional sign, digits with optional fraction and exponent, or the
  literals inf/infinity/nan, case-insensitive).  Binary double rounding,
  digit-group underscores and overflow-to-infinity are not modelled.
* Python dicts are association lists with last-write-wins update
  (`dictSet`) and first-match lookup (`alookup`); built that way, keys
  are unique and lookup agrees with CPython.
* `sorted` / `list.sort` (stable sorts) are `List.insertionSort`, which
  is also stable, so it produces exactly CPython's output for any total
  preorder on the sort keys.
-/

set_option maxRecDepth 100000

/- Core's rational-number arithmetic is marked irreducible, which blocks
`decide` on concrete comparator outputs; re-allow unfolding locally (the
kernel re-checks every proof regardless of reducibility attributes). -/
set_option allowUnsafeReducibility true
attribute [local semireducible] Rat.add Rat.mul Rat.inv Rat.div Rat.sub Rat.neg

/-- Python strings, modelled as their character lists. -/
abbrev Str := List Char

/-- The ASCII whitespace characters recognised by Python's `str.strip()`
(space, tab, newline, carriage return, vertical tab, form feed). -/
def pyIsSpace (c : Char) : Bool :=
  c == ' ' || c == '\t' || c == '\n' || c == '\r' ||
  c == Char.ofNat 11 || c == Char.ofNat 12

/-- Python `s.strip()`: remove leading and trailing whitespace. -/
def pyStrip (s : Str) : Str :=
  ((s.dropWhile pyIsSpace).reverse.dropWhile pyIsSpace).reverse

/-- Lexicographic `≤` on strings by character code point, as used by
Python's string comparison (and hence by `sorted` on strings). -/
def strLe : Str → Str → Bool
  | [], _ => true
  | _ :: _, [] => false
  | a :: as, b :: bs => if a < b then true else if b < a then false else strLe as bs

theorem strLe_total : ∀ a b : Str, (strLe a b || strLe b a) = true := by
  intro a
  induction a with
  | nil => intro b; simp [strLe]
  | cons c cs ih =>
    intro b
    cases b with
    | nil => simp [strLe]
    | cons d ds =>
      by_cases h1 : c < d
      · simp [strLe, h1]
      · by_cases h2 : d < c
        · simp [strLe, h1, h2]
        · simpa [strLe, h1, h2] using ih ds

theorem strLe_trans : ∀ a b c : Str,
    strLe a b = true → strLe b c = true → strLe a c = true := by
  intro a
  induction a with
  | nil => intro b c _ _; simp [strLe]
  | cons x xs ih =>
    intro b c hab hbc
    cases b with
    | nil => simp [strLe] at hab
    | cons y ys =>
      cases c with
      | nil => simp [strLe] at hbc
      | cons z zs =>
        simp only [strLe] at hab hbc ⊢
        rcases lt_trichotomy x y with hxy | hxy | hxy
        · rcases lt_trichotomy y z with hyz | hyz | hyz
          · simp [hxy.trans hyz]
          · subst hyz; simp [hxy]
          · simp [lt_asymm hyz, hyz] at hbc
        · subst hxy
          simp only [lt_irrefl, if_false] at hab
          rcases lt_trichotomy x z with hxz | hxz | hxz
          · simp [hxz]
          · subst hxz
            simp only [lt_irrefl, if_false] at hbc ⊢
            exact ih ys zs hab hbc
          · simp [lt_asymm hxz, hxz] at hbc
        · simp [lt_asymm hxy, hxy] at hab

/-- `pat` is a prefix of `s` (Python `s.startswith(pat)`). -/
def hasPre : Str → Str → Bool
  | [], _ => true
  | _ :: _, [] => false
  | p :: ps, c :: cs => p == c && hasPre ps cs

/-- `pat` occurs as a contiguous substring of `s` (Python `pat in s`). -/
def hasSub (pat : Str) : Str → Bool
  | [] => pat.isEmpty
  | c :: cs => hasPre pat (c :: cs) || hasSub pat cs

/-- Drop the literal `pat` from the front of `s`, failing if it is not
a prefix.  Used to embed fixed-literal portions of the scripts' regexes. -/
def dropLit : Str → Str → Option Str
  | [], s => some s
  | _ :: _, [] => none
  | p :: ps, c :: cs => if p == c then dropLit ps cs else none

/-- The chars before the first occurrence of `sep` in `s` (whole `s` if
none); Python `s.split(sep)[0]` for a non-empty separator. -/
def beforeSub (sep : Str) : Str → Str
  | [] => []
  | c :: cs => if hasPre sep (c :: cs) then [] else c :: beforeSub sep cs

/-- Python `s.split(sep)` for a single-character separator: keeps empty
fields, always returns at least one field. -/
def splitCh (sep : Char) (s : Str) : List Str :=
  s.foldr
    (fun ch acc =>
      if ch == sep then [] :: acc
      else
        match acc with
        | [] => [[ch]]
        | h :: t => (ch :: h) :: t)
    [[]]

/-- Numeric value of a digit string (only applied to all-digit strings). -/
def digitsVal (s : Str) : ℕ :=
  s.foldl (fun n c => 10 * n + (c.toNat - 48)) 0

/-- Association-list lookup, first match; CPython dict lookup given the
last-write-wins update `dictSet` below. -/
def alookup {κ α : Type} [DecidableEq κ] : List (κ × α) → κ → Option α
  | [], _ => none
  | (k, v) :: rest, key => if k = key then some v else alookup rest key

/-- CPython `d[k] = v`: overwrite in place if the key exists (keeping its
position), else append. -/
def dictSet {κ α : Type} [DecidableEq κ] (d : List (κ × α)) (k : κ) (v : α) :
    List (κ × α) :=
  if (alookup d k).isSome then
    d.map (fun p => if p.1 = k then (k, v) else p)
  else d ++ [(k, v)]

/-- The keys of an association-list dict, in insertion order. -/
def dictKeys {κ α : Type} (d : List (κ × α)) : List κ := d.map (·.1)

/-- Result of CPython `float(tok)`: a finite value (exact rational here),
a signed infinity, or NaN. -/
inductive PyFloat where
  | finite (q : ℚ)
  | infinite (pos : Bool)
  | nan
deriving DecidableEq

/-- Parse the numeric-token part of `float` (after sign removal):
`digits [. digits] [(e|E) [sign] digits]`, needing at least one digit in
the mantissa and, when an exponent marker is present, in the exponent. -/
def parsePyNum (neg : Bool) (body : Str) : Option PyFloat :=
  let ip := body.takeWhile (·.isDigit)
  let r1 := body.dropWhile (·.isDigit)
  let fr : Str × Str :=
    match r1 with
    | '.' :: t => (t.takeWhile (·.isDigit), t.dropWhile (·.isDigit))
    | _ => ([], r1)
  let fp := fr.1
  let r2 := fr.2
  if ip = [] ∧ fp = [] then none
  else
    let sgn : ℚ := if neg then -1 else 1
    let mant : ℚ := (digitsVal (ip ++ fp) : ℚ) / 10 ^ fp.length
    match r2 with
    | [] => some (.finite (sgn * mant))
    | e :: t =>
      if e == 'e' || e == 'E' then
        let es : Bool × Str :=
          match t with
          | '+' :: u => (false, u)
          | '-' :: u => (true, u)
          | u => (false, u)
        if es.2 ≠ [] ∧ es.2.all (·.isDigit) then
          let ex : ℤ := (if es.1 then -1 else 1) * (digitsVal es.2 : ℤ)
          some (.finite (sgn * mant * (10 : ℚ) ^ ex))
        else none
      else none

/-- CPython `float(tok)` on a string token: strip whitespace, optional
sign, then either a case-insensitive `inf`/`infinity`/`nan` literal or a
decimal/scientific numeral.  `none` models a raised `ValueError`. -/
def parsePyFloat (tok : Str) : Option PyFloat :=
  let s := pyStrip tok
  match s with
  | [] => none
  | _ =>
    let sb : Bool × Str :=
      match s with
      | '+' :: t => (false, t)
      | '-' :: t => (true, t)
      | t => (false, t)
    let low := sb.2.map Char.toLower
    if low = "inf".data || low = "infinity".data then some (.infinite (!sb.1))
    else if low = "nan".data then some .nan
    else parsePyNum sb.1 sb.2

example : parsePyFloat "0.245".data = some (.finite (49 / 200)) := by decide
example : parsePyFloat "1.5e-2".data = some (.finite (3 / 200)) := by decide
example : parsePyFloat " -2E3 ".data = some (.finite (-2000)) := by decide
example : parsePyFloat "NaNish".data = none := by decide
example : parsePyFloat "nan".data = some .nan := by decide
example : parsePyFloat "-Inf".data = some (.infinite false) := by decide
example : parsePyFloat "".data = none := by decide
example : parsePyFloat ".5".data = some (.finite (1 / 2)) := by decide
example : parsePyFloat "1.2.3".data = none := by decide

/-!
## app.py — `parse_variables_csv` and `compare_dicts`
(src/analysis/scripts/app.py)
-/

/-- One parsed variable record, the per-key value of the dict built by
`parse_variables_csv` (spec §3 VariableRecord).  `value_num = none`
models Python `None` (parse failure or non-finite float); `value_str`
is the raw token. -/
structure VarRec where
  value_str : Str
  value_num : Option ℚ
  lower : Str
  upper : Str
  type : Str
  units : Str
  source_line : ℕ
deriving DecidableEq

/-- The numeric value stored for a value token by `parse_variables_csv`:
`float(val_str)` guarded by `isfinite` — `num = None` on a parse failure
or a non-finite result. -/
def numOfToken (v : Str) : Option ℚ :=
  match parsePyFloat v with
  | some (.finite q) => some q
  | _ => none

/-- The record `parse_variables_csv` stores for one successfully parsed
line: the raw value token, its guarded numeric value, the four metadata
fields, and the 1-based line number. -/
def mkVarRec (v lo up ty un : Str) (i : ℕ) : VarRec :=
  ⟨v, numOfToken v, lo, up, ty, un, i⟩

/-- The body of `parse_variables_csv`'s per-line processing: strip the
line, skip empties; when the line contains both `(` and `)`, the name is
everything through the first `)` and the remaining comma-separated
fields are padded to five; otherwise plain CSV split needing at least
two fields, padded to six.  Empty names are skipped.  The value token is
run through `float` and non-finite results are discarded
(`if not isfinite(num): num = None`).  Returns the dict entry to store,
or `none` when the line is skipped. -/
def parseCsvLine (i : ℕ) (raw : Str) : Option (Str × VarRec) :=
  let line := pyStrip raw
  if line = [] then none
  else
    let fields? : Option (Str × Str × Str × Str × Str × Str) :=
      if line.contains '(' && line.contains ')' then
        let pe := line.takeWhile (fun c => c != ')')
        let name := pe ++ [')']
        let rest0 := line.drop (pe.length + 1)
        let rest := match rest0 with
          | ',' :: t => t
          | t => t
        let parts := splitCh ',' rest
        let padded := (parts ++ List.replicate 5 []).take 5
        match padded.map pyStrip with
        | [v, lo, up, ty, un] => some (name, v, lo, up, ty, un)
        | _ => none
      else
        let parts := splitCh ',' line
        if parts.length < 2 then none
        else
          let padded := (parts ++ List.replicate 6 []).take 6
          match padded.map pyStrip with
          | [n, v, lo, up, ty, un] => some (n, v, lo, up, ty, un)
          | _ => none
    match fields? with
    | none => none
    | some (name, v, lo, up, ty, un) =>
      if name = [] then none
      else some (name, mkVarRec v lo up ty un i)

/-- `parse_variables_csv(path)`: fold the per-line parser over the file's
lines (1-based line numbers), building the dict with last-write-wins. -/
def parse_variables_csv (lines : List Str) : List (Str × VarRec) :=
  lines.enum.foldl
    (fun d p =>
      match parseCsvLine (p.1 + 1) p.2 with
      | none => d
      | some (name, r) => dictSet d name r)
    []

/-- Row status strings produced by `compare_dicts` ("only_in_1",
"only_in_2", "equal_within_tol", "different"); the spec's data model
names them only_in_left / only_in_right / equal_within_tolerance /
different. -/
inductive Status where
  | only_in_1
  | only_in_2
  | equal_within_tol
  | different
deriving DecidableEq

/-- One diff row written by `compare_dicts` (spec §3 ComparisonRow).  The
script stores formatted strings in the CSV cells (`format_sci(x)`,
`f"{x:.6e}"`, `"true"`/`"false"`, `""` for absent); we keep the
underlying values, with `none` for the empty cell. -/
structure Row where
  varName : Str
  status : Status
  value1 : Str
  value2 : Str
  abs_diff : Option ℚ
  rel_diff : Option ℚ
  in_tolerance : Bool
  type1 : Str
  type2 : Str
  units1 : Str
  units2 : Str
deriving DecidableEq

/-- Default absolute tolerance of `compare_dicts` and of the `--abs-tol`
CLI argument. -/
def abs_tol_default : ℚ := 1 / 10 ^ 12

/-- Default relative tolerance of `compare_dicts` and of the `--rel-tol`
CLI argument. -/
def rel_tol_default : ℚ := 1 / 10 ^ 6

/-- `tiny = 1e-300`, the division floor in `compare_dicts`. -/
def tiny : ℚ := 1 / 10 ^ 300

/-- The loop body of `compare_dicts` for one key `k` of the sorted key
union: a missing side gives an `only_in_*` row with no diffs; two
numeric values give the tolerance comparison; otherwise the stripped
raw strings are compared for equality.  The `none, none` case cannot
arise for keys drawn from the union. -/
def compareRow (d1 d2 : List (Str × VarRec)) (abs_tol rel_tol : ℚ) (k : Str) : Row :=
  match alookup d1 k, alookup d2 k with
  | none, some b =>
      ⟨k, .only_in_2, [], b.value_str, none, none, false, [], b.type, [], b.units⟩
  | some a, none =>
      ⟨k, .only_in_1, a.value_str, [], none, none, false, a.type, [], a.units, []⟩
  | some a, some b =>
      match a.value_num, b.value_num with
      | some n1, some n2 =>
          let ad := |n1 - n2|
          let denom := max (max |n1| |n2|) tiny
          let rd := ad / denom
          let in_tol := decide (ad ≤ abs_tol) || decide (rd ≤ rel_tol)
          ⟨k, if in_tol then .equal_within_tol else .different,
            a.value_str, b.value_str, some ad, some rd, in_tol,
            a.type, b.type, a.units, b.units⟩
      | _, _ =>
          let equal := pyStrip a.value_str == pyStrip b.value_str
          ⟨k, if equal then .equal_within_tol else .different,
            a.value_str, b.value_str, none, none, equal,
            a.type, b.type, a.units, b.units⟩
  | none, none => ⟨k, .different, [], [], none, none, false, [], [], [], []⟩

/-- `sorted(set(d1.keys()) | set(d2.keys()))`: the deduplicated key union
in ascending string order. -/
def compareKeys (d1 d2 : List (Str × VarRec)) : List Str :=
  List.insertionSort (fun a b => strLe a b = true) ((dictKeys d1 ++ dictKeys d2).dedup)

/-- `compare_dicts(d1, d2, abs_tol, rel_tol)`: one row per key of the
sorted key union.  (The companion summary counts, a fold over the same
rows' statuses, are not needed by any claim and are omitted.) -/
def compare_dicts (d1 d2 : List (Str × VarRec)) (abs_tol rel_tol : ℚ) : List Row :=
  (compareKeys d1 d2).map (compareRow d1 d2 abs_tol rel_tol)

example :
    parseCsvLine 1 "a_abs_profile(1,4),2.5,0,1,Notype,K".data =
      some ("a_abs_profile(1,4)".data,
        ⟨"2.5".data, some (5 / 2), "0".data, "1".data, "Notype".data, "K".data, 1⟩) := by
  decide

example :
    parseCsvLine 3 "x,NaNish,0,1,T,u".data =
      some ("x".data, ⟨"NaNish".data, none, "0".data, "1".data, "T".data, "u".data, 3⟩) := by
  decide

example : parseCsvLine 1 "justonefield".data = none := by decide

/-!
## test.py — `match_and_sum_absorbents` and `build_comparisons`
(src/analysis/scripts/test.py)

The flowsheet dicts are `str -> float` maps.  Where the Python code
indexes a dict with a key just taken from its `.keys()`, the embedding
uses `(alookup d k).getD 0`; the default is unreachable.
-/

/-- `math.isclose(a, b, rel_tol=r, abs_tol=t)`. -/
def isclose (a b rel_tol abs_tol : ℚ) : Bool :=
  decide (|a - b| ≤ max (rel_tol * max |a| |b|) abs_tol)

/-- `is_absorbent_key(key)`: `"ABSORBENT" in key`. -/
def is_absorbent_key (k : Str) : Bool := hasSub "ABSORBENT".data k

/-- The percentage-difference cell of a comparison tuple: a number, or
`float('inf')` when the right value is below `1e-12` in magnitude but
the difference is non-zero. -/
inductive Pct where
  | val (q : ℚ)
  | inf
deriving DecidableEq

/-- One tuple `(name, v1, v2, abs_diff, pct_diff, note)` produced by
`build_comparisons`. -/
structure CompRow where
  name : Str
  v1 : Option ℚ
  v2 : Option ℚ
  abs_diff : Option ℚ
  pct_diff : Option Pct
  note : Str
deriving DecidableEq

/-- `match_and_sum_absorbents(d1, d2, tol)`: when one dict has exactly
two keys containing `"ABSORBENT"` and the other exactly one, and the
two-key side's sum is `math.isclose` (rel_tol 1e-8, abs_tol `tol`) to
the single value, emit one pre-mapped entry under the single key and
consume all three keys.  Returns `(results, consumed1, consumed2)`.
The two `if` branches of the source are mutually exclusive (they need
`(2,1)` and `(1,2)` absorbent-key counts), so appending their
contributions is faithful. -/
def match_and_sum_absorbents (d1 d2 : List (Str × ℚ)) (tol : ℚ) :
    List (Str × (Option ℚ × Option ℚ × Str)) × List Str × List Str :=
  let abs1 := (dictKeys d1).filter is_absorbent_key
  let abs2 := (dictKeys d2).filter is_absorbent_key
  let st1 : List (Str × (Option ℚ × Option ℚ × Str)) × List Str × List Str :=
    match abs1, abs2 with
    | [k1, k2], [other] =>
      let s := (alookup d1 k1).getD 0 + (alookup d1 k2).getD 0
      let w := (alookup d2 other).getD 0
      if isclose s w (1 / 10 ^ 8) tol then
        ([(other, (some s, some w, "sum of two absorbents in file1 vs single in file2".data))],
          [k1, k2], [other])
      else ([], [], [])
    | _, _ => ([], [], [])
  let st2 : List (Str × (Option ℚ × Option ℚ × Str)) × List Str × List Str :=
    match abs1, abs2 with
    | [other], [k1, k2] =>
      let s := (alookup d2 k1).getD 0 + (alookup d2 k2).getD 0
      let w := (alookup d1 other).getD 0
      if isclose s w (1 / 10 ^ 8) tol then
        ([(other, (some w, some s, "single in file1 vs sum of two absorbents in file2".data))],
          [other], [k1, k2])
      else ([], [], [])
    | _, _ => ([], [], [])
  (st1.1 ++ st2.1, st1.2.1 ++ st2.2.1, st1.2.2 ++ st2.2.2)

/-- The shared row arithmetic of `build_comparisons`: with both values
present, `abs_diff = v1 - v2` and the percentage difference is
`(v1 - v2)/v2*100`, guarded for `|v2| < 1e-12`; otherwise no diffs. -/
def compEntry (name : Str) (v1 v2 : Option ℚ) (note : Str) : CompRow :=
  match v1, v2 with
  | some a, some b =>
    let ad := a - b
    let pd : Pct :=
      if |b| < 1 / 10 ^ 12 then (if ad ≠ 0 then .inf else .val 0)
      else .val ((a - b) / b * 100)
    ⟨name, some a, some b, some ad, some pd, note⟩
  | _, _ => ⟨name, v1, v2, none, none, note⟩

/-- The final sort key of `build_comparisons`:
`abs(pct)` for a finite percentage, `-1` for missing or infinite. -/
def compSortKey (r : CompRow) : ℚ :=
  match r.pct_diff with
  | some (.val q) => |q|
  | _ => -1

/-- `build_comparisons(d1, d2)`: pre-mapped absorbent entries first, then
one row per non-consumed key of the key union, sorted by absolute
percentage difference, descending.  CPython iterates `set(d1)|set(d2)`
in an unspecified order; the embedding fixes first-insertion order —
every theorem below about this function is insensitive to row order.
The sort models `list.sort(key=..., reverse=True)` (stable, descending)
as a stable sort with the reversed key comparison. -/
def build_comparisons (d1 d2 : List (Str × ℚ)) : List CompRow :=
  let pre := match_and_sum_absorbents d1 d2 (1 / 10 ^ 8)
  let preRows := pre.1.map (fun e => compEntry e.1 e.2.1 e.2.2.1 e.2.2.2)
  let keys := (dictKeys d1 ++ dictKeys d2).dedup
  let loopRows :=
    (keys.filter (fun k => !(pre.2.1.contains k || pre.2.2.contains k))).map
      (fun k => compEntry k (alookup d1 k) (alookup d2 k) [])
  List.insertionSort (fun a b => compSortKey b ≤ compSortKey a) (preRows ++ loopRows)

example :
    match_and_sum_absorbents
      [("ABSORBENT_1".data, 2), ("ABSORBENT_2".data, 3)] [("ABSORBENT".data, 5)] (1 / 10 ^ 8) =
    ([("ABSORBENT".data, (some 5, some 5,
        "sum of two absorbents in file1 vs single in file2".data))],
      ["ABSORBENT_1".data, "ABSORBENT_2".data], ["ABSORBENT".data]) := by
  decide

example :
    match_and_sum_absorbents
      [("A(1)".data, 2), ("A(2)".data, 3)] [("A".data, 5)] (1 / 10 ^ 8) =
    ([], [], []) := by
  decide

/-!
## analyse.py — `read_all_values_from_txt`
(src/scripts/analyse.py)
-/

/-- `read_all_values_from_txt(file_path, path_prefix=None)` over the
file's lines: strip; skip blank and `#`-comment lines; split on `:` and
strip each part; need at least six parts; optionally filter by a truthy
path prefix; `float` the value token — on success store it (any float,
there is no finiteness check here), on `ValueError` print a warning and
`continue` (the record is NOT stored).  Returns the dict together with
the list of `(path, value_str)` warnings printed. -/
def read_all_values_from_txt (lines : List Str) (pfx : Option Str) :
    List (Str × PyFloat) × List (Str × Str) :=
  lines.foldl
    (fun acc raw =>
      let line := pyStrip raw
      if line = [] || hasPre "#".data line then acc
      else
        let parts := (splitCh ':' line).map pyStrip
        match parts with
        | path :: vstr :: rest =>
          if rest.length + 2 < 6 then acc
          else if (match pfx with
                   | some (c :: cs) => !(hasPre (c :: cs) path)
                   | _ => false) then acc
          else
            match parsePyFloat vstr with
            | some f => (dictSet acc.1 path f, acc.2)
            | none => (acc.1, acc.2 ++ [(path, vstr)])
        | _ => acc)
    ([], [])

example :
    read_all_values_from_txt
      ["Plant.X : 1.5 : 0 : 10 : Notype : K".data,
       "# comment".data,
       "P : NaNish : 0 : 1 : T : u".data] none =
    ([("Plant.X".data, .finite (3 / 2))], [("P".data, "NaNish".data)]) := by
  decide

/-!
## co2_equilibrium.py — `REQUIRED_VARIABLES` and `extract_stage_data`
(src/analysis/scripts/co2_equilibrium.py)

Each of the three compiled patterns is
`Plant\.Absorber\.Stage\((\d+)\)\.trans_prop\.SUFFIX\s*:\s*([+-]?[0-9.eE+ -]+)`
for a fixed literal SUFFIX, applied with `pattern.match` (anchored at
the start of the line).  These regexes are deterministic — every
repetition is over a character set disjoint from what follows — so they
embed as literal/`takeWhile` parsing with no backtracking:
`\d+` then `\)` is take-digits then expect `)`; `\s*:\s*` is
take-whitespace, expect `:`, take-whitespace; the value group, with
`+`/`-` inside the character class and nothing after it, is a greedy
take of the class characters, required non-empty. -/

/-- The three tracked stage variables, in the dict-insertion (and hence
matching) order of `REQUIRED_VARIABLES`. -/
inductive StageVar where
  | pressure
  | co2_mole_frac
  | loading_co2
deriving DecidableEq

/-- The path suffix after `.trans_prop.` in each variable's pattern. -/
def stageVarSuffix : StageVar → Str
  | .pressure => "stg_pressure".data
  | .co2_mole_frac => ['m','o','l','e','_','f','r','a','c','_','v','a','p','(','"','C','O','2','"',')']
  | .loading_co2 => "loading_CO2".data

/-- Characters of the value group's class `[0-9.eE+ -]` (which also
contains the optional leading sign). -/
def valClassCh (c : Char) : Bool :=
  c.isDigit || c == '.' || c == 'e' || c == 'E' || c == '+' || c == ' ' || c == '-'

/-- `pattern.match(line)` for one `REQUIRED_VARIABLES` pattern: returns
the stage number (group 1) and the raw value substring (group 2). -/
def matchStageVar (suffix : Str) (line : Str) : Option (ℕ × Str) :=
  match dropLit "Plant.Absorber.Stage(".data line with
  | none => none
  | some r1 =>
    let ds := r1.takeWhile (·.isDigit)
    let r2 := r1.dropWhile (·.isDigit)
    if ds = [] then none
    else
      match dropLit (")".data ++ ".trans_prop.".data ++ suffix) r2 with
      | none => none
      | some r3 =>
        match r3.dropWhile pyIsSpace with
        | ':' :: r5 =>
          let v := (r5.dropWhile pyIsSpace).takeWhile valClassCh
          if v = [] then none else some (digitsVal ds, v)
        | _ => none

/-- `extract_stage_data` over the file's lines: strip; skip blank and
`#` lines; try the three patterns in `REQUIRED_VARIABLES` order; on a
match, `float` the value after `strip().replace(" ", "")` —  storing
`stage_data[stage][var]` on success and printing a warning (not
modelled further) on `ValueError`. -/
def extract_stage_data (lines : List Str) : List (ℕ × List (StageVar × PyFloat)) :=
  lines.foldl
    (fun sd raw =>
      let line := pyStrip raw
      if line = [] || hasPre "#".data line then sd
      else
        [StageVar.pressure, StageVar.co2_mole_frac, StageVar.loading_co2].foldl
          (fun sd v =>
            match matchStageVar (stageVarSuffix v) line with
            | none => sd
            | some sv =>
              let tok := (pyStrip sv.2).filter (fun c => c != ' ')
              match parsePyFloat tok with
              | some f => dictSet sd sv.1 (dictSet ((alookup sd sv.1).getD []) v f)
              | none => sd)
          sd)
    []

example :
    matchStageVar (stageVarSuffix .loading_co2)
      "Plant.Absorber.Stage(3).trans_prop.loading_CO2 : 0.245 : 0 : 1 : Notype : mol/mol".data =
    some (3, "0.245 ".data) := by
  decide

/-!
## concatenate.py — `load_variable_order`, the row ordering of
`write_txt_file`, and `format_scientific_notation`
(src/scripts/concatenate.py)
-/

/-- One entry of `read_csv_files`' output, as consumed by
`write_txt_file` (the `source_file` bookkeeping field is not read by
the ordering or formatting code and is omitted). -/
structure ConVar where
  path : Str
  value : Str
  lower_bound : Str
  upper_bound : Str
  type : Str
  units : Str
deriving DecidableEq

/-- `load_variable_order` over the order file's lines: strip; skip
blank, `#`- and `!`-prefixed lines; drop a leading tab (dead after
`strip`, kept for fidelity); keep `line.split(' : ')[0]` for lines
containing `' : '`. -/
def load_variable_order (lines : List Str) : List Str :=
  lines.foldl
    (fun acc raw =>
      let line := pyStrip raw
      if line = [] || hasPre "#".data line || hasPre "!".data line then acc
      else
        let line2 := match line with
          | '\t' :: t => t
          | t => t
        if hasSub [' ', ':', ' '] line2 then acc ++ [beforeSub [' ', ':', ' '] line2]
        else acc)
    []

/-- `order_map = {path: i for i, path in enumerate(order_list)}`: the
rank of a path, with a later duplicate occurrence overwriting an
earlier one. -/
def rankOf (order : List Str) (p : Str) : Option ℕ :=
  order.enum.foldl (fun acc e => if e.2 = p then some e.1 else acc) none

/-- Lexicographic `<` on strings by character code point (Python string
`<`), used for tuple comparison below. -/
def strLt : Str → Str → Bool
  | [], [] => false
  | [], _ :: _ => true
  | _ :: _, [] => false
  | a :: as, b :: bs => if a < b then true else if b < a then false else strLt as bs

/-- Lexicographic comparison of two equal-length string tuples
(Python tuple `≤` on `tuple(parts)`). -/
def strListLe : List Str → List Str → Bool
  | [], _ => true
  | _ :: _, [] => false
  | a :: as, b :: bs => if strLt a b then true else if strLt b a then false else strListLe as bs

/-- The order-file comparison of `write_txt_file`'s `sort_key`:
`(0, order_map[path])` for known paths, `(1, path)` for unknown ones,
compared as Python tuples. -/
def varOrderLe (order : List Str) (a b : ConVar) : Bool :=
  match rankOf order a.path, rankOf order b.path with
  | some i, some j => decide (i ≤ j)
  | some _, none => true
  | none, some _ => false
  | none, none => strLe a.path b.path

/-- The fallback comparison of `write_txt_file`'s hierarchy `sort_key`:
`(len(parts), tuple(parts))` for `parts = path.split('.')`, compared as
Python tuples. -/
def hierLe (a b : ConVar) : Bool :=
  let pa := splitCh '.' a.path
  let pb := splitCh '.' b.path
  if pa.length < pb.length then true
  else if pb.length < pa.length then false
  else strListLe pa pb

/-- The row order in which `write_txt_file` emits its variable lines:
`sorted` (stable) with the order-file key when `load_variable_order`
found any paths, else with the hierarchy key. -/
def writeSortedVars (orderLines : List Str) (vars : List ConVar) : List ConVar :=
  let order := load_variable_order orderLines
  if order = [] then List.insertionSort (fun a b => hierLe a b = true) vars
  else List.insertionSort (fun a b => varOrderLe order a b = true) vars

/-- IEEE-style round-half-to-even to an integer, the rounding CPython's
`format(num, '.16e')` applies to the scaled mantissa. -/
def roundHalfEven (x : ℚ) : ℤ :=
  let n := ⌊x⌋
  let r := x - n
  if r < 1 / 2 then n
  else if 1 / 2 < r then n + 1
  else if n % 2 = 0 then n else n + 1

/-- The numeric branch of `format_scientific_notation(value_str)`
(src/scripts/concatenate.py lines 24-36), at the value level: the
rational denoted by the emitted string.  The source formats
`num = float(value_str)` as `f"{num:.16e}"` — zero prints as
`0.0000000000000000e+00`, anything else as a mantissa in `[1, 10)`
rounded to 16 fractional digits times a power of ten, so the printed
string denotes `round(num / 10^(e-16)) * 10^(e-16)` with
`e = floor(log10 |num|)` (a rounding carry only moves the printed
exponent up by one without changing the denoted value).  Re-parsing
such a decimal numeral with `float` (`parsePyFloat`) is exact over ℚ. -/
def format_scientific (q : ℚ) : ℚ :=
  if q = 0 then 0
  else
    let e : ℤ := Int.log 10 |q|
    let scale : ℚ := (10 : ℚ) ^ (e - 16)
    (roundHalfEven (q / scale) : ℚ) * scale

example : rankOf ["B".data, "A".data] "A".data = some 1 := by decide
example : rankOf ["B".data, "A".data] "C".data = none := by decide
example :
    load_variable_order ["# c".data, "\tPlant.X : 1 : 2".data, "noseparator".data] =
    ["Plant.X".data] := by
  decide

/-!
## Shared lemmas
-/

/-- Every successfully parsed CSV line stores the guarded `float` of its
own raw value token as the numeric value. -/
theorem parseCsvLine_value_num (i : ℕ) (raw name : Str) (r : VarRec)
    (h : parseCsvLine i raw = some (name, r)) :
    r.value_num = numOfToken r.value_str := by
  unfold parseCsvLine at h
  dsimp only at h
  split at h
  · exact absurd h (by simp)
  · split at h
    · exact absurd h (by simp)
    · split at h
      · exact absurd h (by simp)
      · rw [Option.some.injEq, Prod.mk.injEq] at h
        rw [← h.2]
        rfl

/-- The comparison row for a key carries that key as its variable name. -/
theorem compareRow_varName (d1 d2 : List (Str × VarRec)) (abs_tol rel_tol : ℚ)
    (k : Str) : (compareRow d1 d2 abs_tol rel_tol k).varName = k := by
  unfold compareRow
  split
  · rfl
  · rfl
  · split <;> rfl
  · rfl

/-- Evaluation of the comparison row when both sides are present and
numeric. -/
theorem compareRow_numeric
    (d1 d2 : List (Str × VarRec)) (abs_tol rel_tol : ℚ) (k : Str)
    (a b : VarRec) (n1 n2 : ℚ)
    (ha : alookup d1 k = some a) (hb : alookup d2 k = some b)
    (hn1 : a.value_num = some n1) (hn2 : b.value_num = some n2) :
    compareRow d1 d2 abs_tol rel_tol k =
      ⟨k, if (decide (|n1 - n2| ≤ abs_tol) ||
              decide (|n1 - n2| / max (max |n1| |n2|) tiny ≤ rel_tol)) then
            Status.equal_within_tol else .different,
        a.value_str, b.value_str, some |n1 - n2|,
        some (|n1 - n2| / max (max |n1| |n2|) tiny),
        (decide (|n1 - n2| ≤ abs_tol) ||
          decide (|n1 - n2| / max (max |n1| |n2|) tiny ≤ rel_tol)),
        a.type, b.type, a.units, b.units⟩ := by
  unfold compareRow
  rw [ha, hb]
  dsimp only
  rw [hn1, hn2]

/-!
## Claims
-/

/-- C1: For every path present in both record mappings with both values
numeric, the comparator computes `abs_diff = |v_left - v_right|` and
`rel_diff = abs_diff / max(|v_left|, |v_right|, tiny)`, sets
`in_tolerance` to `(abs_diff ≤ abs_tol) OR (rel_diff ≤ rel_tol)`, and
assigns status `equal_within_tol` ("equal_within_tolerance" in the
spec's naming) exactly when `in_tolerance` holds and `different`
otherwise; the tolerance defaults are `1e-12` and `1e-6`. -/
theorem C1_numeric_row_formulas
    (d1 d2 : List (Str × VarRec)) (abs_tol rel_tol : ℚ) (k : Str)
    (a b : VarRec) (n1 n2 : ℚ)
    (ha : alookup d1 k = some a) (hb : alookup d2 k = some b)
    (hn1 : a.value_num = some n1) (hn2 : b.value_num = some n2) :
    (compareRow d1 d2 abs_tol rel_tol k).abs_diff = some |n1 - n2| ∧
    (compareRow d1 d2 abs_tol rel_tol k).rel_diff
      = some (|n1 - n2| / max (max |n1| |n2|) tiny) ∧
    ((compareRow d1 d2 abs_tol rel_tol k).in_tolerance = true ↔
      (|n1 - n2| ≤ abs_tol ∨ |n1 - n2| / max (max |n1| |n2|) tiny ≤ rel_tol)) ∧
    ((compareRow d1 d2 abs_tol rel_tol k).status = Status.equal_within_tol ↔
      (compareRow d1 d2 abs_tol rel_tol k).in_tolerance = true) ∧
    ((compareRow d1 d2 abs_tol rel_tol k).status = Status.different ↔
      (compareRow d1 d2 abs_tol rel_tol k).in_tolerance = false) ∧
    (k ∈ compareKeys d1 d2 →
      compareRow d1 d2 abs_tol rel_tol k ∈ compare_dicts d1 d2 abs_tol rel_tol) ∧
    abs_tol_default = 1 / 10 ^ 12 ∧ rel_tol_default = 1 / 10 ^ 6 := by
  have hrow := compareRow_numeric d1 d2 abs_tol rel_tol k a b n1 n2 ha hb hn1 hn2
  rw [hrow]
  refine ⟨rfl, rfl, ?_, ?_, ?_, ?_, rfl, rfl⟩
  · simp
  · rcases hd : (decide (|n1 - n2| ≤ abs_tol) ||
        decide (|n1 - n2| / max (max |n1| |n2|) tiny ≤ rel_tol)) with _ | _ <;>
      simp [hd]
  · rcases hd : (decide (|n1 - n2| ≤ abs_tol) ||
        decide (|n1 - n2| / max (max |n1| |n2|) tiny ≤ rel_tol)) with _ | _ <;>
      simp [hd]
  · intro hk
    rw [← hrow]
    exact List.mem_map_of_mem _ hk

/-- Witness for C1 at a concrete input: key "x" with values 1 and 2 under
the default tolerances. -/
theorem C1_numeric_row_formulas_witness :
    alookup [(['x'], (⟨['1'], some 1, [], [], [], [], 1⟩ : VarRec))] ['x']
        = some ⟨['1'], some 1, [], [], [], [], 1⟩ ∧
    (compareRow [(['x'], ⟨['1'], some 1, [], [], [], [], 1⟩)]
        [(['x'], ⟨['2'], some 2, [], [], [], [], 1⟩)]
        abs_tol_default rel_tol_default ['x']).abs_diff = some |(1 : ℚ) - 2| :=
  ⟨by decide,
    (C1_numeric_row_formulas
      [(['x'], ⟨['1'], some 1, [], [], [], [], 1⟩)]
      [(['x'], ⟨['2'], some 2, [], [], [], [], 1⟩)]
      abs_tol_default rel_tol_default ['x']
      ⟨['1'], some 1, [], [], [], [], 1⟩ ⟨['2'], some 2, [], [], [], [], 1⟩
      1 2 (by decide) (by decide) rfl rfl).1⟩

/-- Evaluation of the comparison row when both sides are present and at
least one is non-numeric: the string-equality fallback. -/
theorem compareRow_fallback
    (d1 d2 : List (Str × VarRec)) (abs_tol rel_tol : ℚ) (k : Str)
    (a b : VarRec)
    (ha : alookup d1 k = some a) (hb : alookup d2 k = some b)
    (h : a.value_num = none ∨ b.value_num = none) :
    compareRow d1 d2 abs_tol rel_tol k =
      ⟨k, if (pyStrip a.value_str == pyStrip b.value_str) then
            Status.equal_within_tol else .different,
        a.value_str, b.value_str, none, none,
        (pyStrip a.value_str == pyStrip b.value_str),
        a.type, b.type, a.units, b.units⟩ := by
  unfold compareRow
  rw [ha, hb]
  dsimp only
  rcases h1 : a.value_num with _ | n1 <;> rcases h2 : b.value_num with _ | n2
  · rfl
  · rfl
  · rfl
  · exfalso
    rcases h with h | h
    · rw [h1] at h; exact Option.noConfusion h
    · rw [h2] at h; exact Option.noConfusion h

/-- C8: For every path present in both record mappings, exactly equal
left and right values give the row status `equal_within_tol` (any
non-negative absolute tolerance, in particular the default 1e-12). -/
theorem C8_exact_equal_within_tolerance
    (d1 d2 : List (Str × VarRec)) (abs_tol rel_tol : ℚ) (k : Str)
    (a b : VarRec)
    (ha : alookup d1 k = some a) (hb : alookup d2 k = some b)
    (hnum : a.value_num = b.value_num) (hstr : a.value_str = b.value_str)
    (htol : 0 ≤ abs_tol) :
    (compareRow d1 d2 abs_tol rel_tol k).status = Status.equal_within_tol := by
  rcases hv : b.value_num with _ | n
  · rw [compareRow_fallback d1 d2 abs_tol rel_tol k a b ha hb (Or.inr hv)]
    simp [hstr]
  · rw [compareRow_numeric d1 d2 abs_tol rel_tol k a b n n ha hb (hnum.trans hv) hv]
    simp [htol]

/-- Witness for C8: equal records (value 7, token "7") under the default
tolerances. -/
theorem C8_exact_equal_within_tolerance_witness :
    (0 : ℚ) ≤ abs_tol_default ∧
    (compareRow [(['x'], ⟨['7'], some 7, [], [], [], [], 1⟩)]
        [(['x'], ⟨['7'], some 7, [], [], [], [], 1⟩)]
        abs_tol_default rel_tol_default ['x']).status = Status.equal_within_tol :=
  ⟨by norm_num [abs_tol_default],
    C8_exact_equal_within_tolerance
      [(['x'], ⟨['7'], some 7, [], [], [], [], 1⟩)]
      [(['x'], ⟨['7'], some 7, [], [], [], [], 1⟩)]
      abs_tol_default rel_tol_default ['x']
      ⟨['7'], some 7, [], [], [], [], 1⟩ ⟨['7'], some 7, [], [], [], [], 1⟩
      (by decide) (by decide) rfl rfl (by norm_num [abs_tol_default])⟩

/-- C9: The relative-difference computation is division-safe: the
denominator `max(|v_left|, |v_right|, 1e-300)` is strictly positive, so
`rel_diff` is always defined; and when both values are exactly zero the
row gets `abs_diff = 0`, `rel_diff = 0` and status `equal_within_tol`
under the default tolerances. -/
theorem C9_denominator_positive_and_zero_case
    (d1 d2 : List (Str × VarRec)) (k : Str) (a b : VarRec) (n1 n2 : ℚ)
    (ha : alookup d1 k = some a) (hb : alookup d2 k = some b)
    (hn1 : a.value_num = some n1) (hn2 : b.value_num = some n2) :
    (0 < max (max |n1| |n2|) tiny ∧ tiny = 1 / 10 ^ 300) ∧
    (compareRow d1 d2 abs_tol_default rel_tol_default k).rel_diff
      = some (|n1 - n2| / max (max |n1| |n2|) tiny) ∧
    (n1 = 0 → n2 = 0 →
      (compareRow d1 d2 abs_tol_default rel_tol_default k).abs_diff = some 0 ∧
      (compareRow d1 d2 abs_tol_default rel_tol_default k).rel_diff = some 0 ∧
      (compareRow d1 d2 abs_tol_default rel_tol_default k).in_tolerance = true ∧
      (compareRow d1 d2 abs_tol_default rel_tol_default k).status
        = Status.equal_within_tol) := by
  have htiny : (0 : ℚ) < tiny := by norm_num [tiny]
  have hrow := compareRow_numeric d1 d2 abs_tol_default rel_tol_default k a b n1 n2
    ha hb hn1 hn2
  refine ⟨⟨lt_of_lt_of_le htiny (le_max_right _ _), rfl⟩, ?_, ?_⟩
  · rw [hrow]
  · intro h1 h2
    subst h1; subst h2
    rw [hrow]
    norm_num [abs_tol_default]

/-- Witness for C9: both values zero at key "x". -/
theorem C9_denominator_positive_and_zero_case_witness :
    (0 : ℚ) < max (max |(0 : ℚ)| |(0 : ℚ)|) tiny ∧
    (compareRow [(['x'], ⟨['0'], some 0, [], [], [], [], 1⟩)]
        [(['x'], ⟨['0'], some 0, [], [], [], [], 1⟩)]
        abs_tol_default rel_tol_default ['x']).status = Status.equal_within_tol := by
  have h := C9_denominator_positive_and_zero_case
    [(['x'], ⟨['0'], some 0, [], [], [], [], 1⟩)]
    [(['x'], ⟨['0'], some 0, [], [], [], [], 1⟩)] ['x']
    ⟨['0'], some 0, [], [], [], [], 1⟩ ⟨['0'], some 0, [], [], [], [], 1⟩
    0 0 (by decide) (by decide) rfl rfl
  exact ⟨h.1.1, (h.2.2 rfl rfl).2.2.2⟩

/-- C10: A value token parsing to a non-finite float (infinity or NaN)
is stored with a null numeric value (the raw string is kept), and a
both-sides path with a null numeric value on either side is compared by
(stripped) string equality of the raw tokens instead of by tolerance —
no diffs are computed.  (`parse_variables_csv` strips every field before
storing it, so for stored records the comparator's extra `strip()` is
the identity and the comparison is exact string equality of the
tokens.) -/
theorem C10_nonfinite_is_null_and_string_fallback :
    (∀ (i : ℕ) (raw name : Str) (r : VarRec),
      parseCsvLine i raw = some (name, r) →
      (parsePyFloat r.value_str = some (.infinite true) ∨
        parsePyFloat r.value_str = some (.infinite false) ∨
        parsePyFloat r.value_str = some .nan) →
      r.value_num = none) ∧
    (∀ (d1 d2 : List (Str × VarRec)) (abs_tol rel_tol : ℚ) (k : Str)
        (a b : VarRec),
      alookup d1 k = some a → alookup d2 k = some b →
      a.value_num = none ∨ b.value_num = none →
      (compareRow d1 d2 abs_tol rel_tol k).abs_diff = none ∧
      (compareRow d1 d2 abs_tol rel_tol k).rel_diff = none ∧
      (compareRow d1 d2 abs_tol rel_tol k).in_tolerance
        = (pyStrip a.value_str == pyStrip b.value_str) ∧
      ((compareRow d1 d2 abs_tol rel_tol k).status = Status.equal_within_tol ↔
        pyStrip a.value_str = pyStrip b.value_str)) := by
  constructor
  · intro i raw name r h hnf
    rw [parseCsvLine_value_num i raw name r h]
    unfold numOfToken
    rcases hnf with h1 | h1 | h1 <;> rw [h1]
  · intro d1 d2 abs_tol rel_tol k a b ha hb hnull
    rw [compareRow_fallback d1 d2 abs_tol rel_tol k a b ha hb hnull]
    refine ⟨rfl, rfl, rfl, ?_⟩
    by_cases he : pyStrip a.value_str = pyStrip b.value_str <;> simp [he]

/-- Witness for C10: the CSV line `x,nan,0,1,T,u` stores a null numeric
value, and two records with token "nan" compare equal by the string
fallback. -/
theorem C10_nonfinite_is_null_and_string_fallback_witness :
    (parseCsvLine 1 "x,nan,0,1,T,u".data
      = some (['x'], ⟨"nan".data, none, ['0'], ['1'], ['T'], ['u'], 1⟩)) ∧
    (⟨"nan".data, none, ['0'], ['1'], ['T'], ['u'], 1⟩ : VarRec).value_num = none ∧
    (compareRow [(['x'], ⟨"nan".data, none, ['0'], ['1'], ['T'], ['u'], 1⟩)]
        [(['x'], ⟨"nan".data, none, ['0'], ['1'], ['T'], ['u'], 1⟩)]
        abs_tol_default rel_tol_default ['x']).status = Status.equal_within_tol := by
  refine ⟨by decide, ?_, ?_⟩
  · exact C10_nonfinite_is_null_and_string_fallback.1 1 "x,nan,0,1,T,u".data ['x']
      ⟨"nan".data, none, ['0'], ['1'], ['T'], ['u'], 1⟩ (by decide)
      (Or.inr (Or.inr (by decide)))
  · have h := C10_nonfinite_is_null_and_string_fallback.2
      [(['x'], ⟨"nan".data, none, ['0'], ['1'], ['T'], ['u'], 1⟩)]
      [(['x'], ⟨"nan".data, none, ['0'], ['1'], ['T'], ['u'], 1⟩)]
      abs_tol_default rel_tol_default ['x']
      ⟨"nan".data, none, ['0'], ['1'], ['T'], ['u'], 1⟩
      ⟨"nan".data, none, ['0'], ['1'], ['T'], ['u'], 1⟩
      (by decide) (by decide) (Or.inl rfl)
    exact h.2.2.2.mpr rfl

/-- C4, counterexample: the claim says a record whose value token fails
numeric parsing is kept in the output mapping (with a null value) and
is never dropped.  For the txt extractor `read_all_values_from_txt`,
the line `P : NaNish : 0 : 1 : T : u` produces an empty mapping — the
record is dropped (a warning is printed) — refuting the claim as
stated. -/
theorem C4_counterexample_txt_extractor_drops :
    alookup (read_all_values_from_txt
        ["P : NaNish : 0 : 1 : T : u".data] none).1 ['P'] = none ∧
    (read_all_values_from_txt ["P : NaNish : 0 : 1 : T : u".data] none).2
      = [(['P'], "NaNish".data)] := by
  decide

/-- C4, amended: on a value token that fails numeric parsing, the CSV
extractor `parse_variables_csv` keeps the record with a null numeric
value and the raw string preserved (it prints no warning), while the
txt extractor `read_all_values_from_txt` prints a warning and drops the
record from its mapping; in both, processing continues. -/
theorem C4_amended_unparseable_value_handling :
    (∀ (i : ℕ) (raw name : Str) (r : VarRec),
      parseCsvLine i raw = some (name, r) →
      parsePyFloat r.value_str = none →
      r.value_num = none) ∧
    parse_variables_csv ["P,NaNish,0,1,T,u".data]
      = [(['P'], ⟨"NaNish".data, none, ['0'], ['1'], ['T'], ['u'], 1⟩)] ∧
    read_all_values_from_txt ["P : NaNish : 0 : 1 : T : u".data] none
      = ([], [(['P'], "NaNish".data)]) := by
  refine ⟨?_, by decide, by decide⟩
  intro i raw name r h hp
  rw [parseCsvLine_value_num i raw name r h]
  unfold numOfToken
  rw [hp]

/-- Witness for C4 (amended): the CSV line `x,abc,0,1,T,u` has an
unparseable value token and is kept with a null numeric value. -/
theorem C4_amended_unparseable_value_handling_witness :
    parseCsvLine 1 "x,abc,0,1,T,u".data
      = some (['x'], ⟨"abc".data, none, ['0'], ['1'], ['T'], ['u'], 1⟩) ∧
    (⟨"abc".data, none, ['0'], ['1'], ['T'], ['u'], 1⟩ : VarRec).value_num = none :=
  ⟨by decide,
    C4_amended_unparseable_value_handling.1 1 "x,abc,0,1,T,u".data ['x']
      ⟨"abc".data, none, ['0'], ['1'], ['T'], ['u'], 1⟩ (by decide) (by decide)⟩

/-- C6, counterexample: the claim's input line lacks the `.trans_prop.`
path component that all three `REQUIRED_VARIABLES` regexes require, so
`extract_stage_data` extracts nothing from it — there is no stage key 3,
refuting the claim as stated. -/
theorem C6_counterexample_missing_trans_prop :
    extract_stage_data
        ["Plant.Absorber.Stage(3).loading_CO2 : 0.245 : 0 : 1 : Notype : mol/mol".data]
      = [] ∧
    alookup (extract_stage_data
        ["Plant.Absorber.Stage(3).loading_CO2 : 0.245 : 0 : 1 : Notype : mol/mol".data])
        3 = none := by
  constructor
  · decide
  · decide

/-- C6, amended: with the `.trans_prop.` component the regexes require —
`Plant.Absorber.Stage(3).trans_prop.loading_CO2 : 0.245 : 0 : 1 : Notype : mol/mol`
— extraction yields stage key 3 with `loading_co2 = 0.245`. -/
theorem C6_amended_stage_extraction :
    alookup (extract_stage_data
        ["Plant.Absorber.Stage(3).trans_prop.loading_CO2 : 0.245 : 0 : 1 : Notype : mol/mol".data])
        3
      = some [(StageVar.loading_co2, .finite (245 / 1000))] := by
  decide

/-- Round-half-to-even differs from the true value by at most one half. -/
theorem abs_roundHalfEven_sub (x : ℚ) : |(roundHalfEven x : ℚ) - x| ≤ 1 / 2 := by
  have h0 : (0 : ℚ) ≤ x - ⌊x⌋ := sub_nonneg.mpr (Int.floor_le x)
  have h1 : x - ⌊x⌋ < 1 := by
    have := Int.lt_floor_add_one x
    linarith
  unfold roundHalfEven
  dsimp only
  split
  case isTrue hr => rw [abs_sub_comm, abs_of_nonneg h0]; linarith
  case isFalse hr =>
    split
    case isTrue hr2 =>
      have hcast : ((⌊x⌋ + 1 : ℤ) : ℚ) = (⌊x⌋ : ℚ) + 1 := by push_cast; ring
      rw [hcast, abs_of_nonneg (by linarith)]
      linarith
    case isFalse hr2 =>
      have he : x - ⌊x⌋ = 1 / 2 := le_antisymm (not_lt.mp hr2) (not_lt.mp hr)
      split
      · rw [abs_sub_comm, abs_of_nonneg h0]; linarith
      · have hcast : ((⌊x⌋ + 1 : ℤ) : ℚ) = (⌊x⌋ : ℚ) + 1 := by push_cast; ring
        rw [hcast, abs_of_nonneg (by linarith)]
        linarith

/-- C5: For every record line with a numerically parseable value,
re-serializing the parsed value in the `%.16e` scientific format of the
reconstruction operation denotes a rational within `1e-15` relative
error of the original, and re-parsing that decimal numeral is exact —
the round-trip law. -/
theorem C5_format_roundtrip (raw : Str) (q : ℚ)
    (h : parsePyFloat raw = some (.finite q)) :
    |format_scientific q - q| ≤ (1 / 10 ^ 15) * |q| := by
  by_cases hq : q = 0
  · subst hq; simp [format_scientific]
  · have habs : 0 < |q| := abs_pos.mpr hq
    unfold format_scientific
    rw [if_neg hq]
    dsimp only
    set e := Int.log 10 |q| with he
    set s : ℚ := (10 : ℚ) ^ (e - 16) with hs
    have hspos : 0 < s := by rw [hs]; exact zpow_pos (by norm_num) _
    have key : (roundHalfEven (q / s) : ℚ) * s - q
        = ((roundHalfEven (q / s) : ℚ) - q / s) * s := by
      field_simp
    rw [key, abs_mul, abs_of_pos hspos]
    have hbound := abs_roundHalfEven_sub (q / s)
    have h10e : (10 : ℚ) ^ e ≤ |q| := by
      have := Int.zpow_log_le_self (b := 10) (r := |q|) (by norm_num) habs
      simpa using this
    have hmul : s * 10 ^ (16 : ℕ) = (10 : ℚ) ^ e := by
      rw [hs, ← zpow_natCast (10 : ℚ) 16, ← zpow_add₀ (by norm_num : (10 : ℚ) ≠ 0)]
      norm_num
    have hsle : s ≤ |q| / 10 ^ (16 : ℕ) := by
      rw [le_div_iff₀ (by positivity), hmul]
      exact h10e
    calc |(roundHalfEven (q / s) : ℚ) - q / s| * s
        ≤ (1 / 2) * s := mul_le_mul_of_nonneg_right hbound hspos.le
      _ ≤ (1 / 2) * (|q| / 10 ^ (16 : ℕ)) :=
          mul_le_mul_of_nonneg_left hsle (by norm_num)
      _ ≤ (1 / 10 ^ 15) * |q| := by
          rw [div_eq_mul_inv]
          nlinarith [abs_nonneg q]

/-- Witness for C5: the token "1" parses to 1 and satisfies the bound. -/
theorem C5_format_roundtrip_witness :
    parsePyFloat ['1'] = some (.finite 1) ∧
    |format_scientific 1 - 1| ≤ ((1 : ℚ) / 10 ^ 15) * |(1 : ℚ)| :=
  ⟨by decide, C5_format_roundtrip ['1'] 1 (by decide)⟩

/-- The order-file sort key comparison is total. -/
theorem varOrderLe_total (order : List Str) (a b : ConVar) :
    varOrderLe order a b = true ∨ varOrderLe order b a = true := by
  unfold varOrderLe
  rcases h1 : rankOf order a.path with _ | i <;>
    rcases h2 : rankOf order b.path with _ | j
  · cases hx : strLe a.path b.path
    · have h := strLe_total a.path b.path
      rw [hx] at h
      simp at h
      exact Or.inr h
    · exact Or.inl rfl
  · exact Or.inr rfl
  · exact Or.inl rfl
  · rcases le_total i j with h | h
    · exact Or.inl (decide_eq_true h)
    · exact Or.inr (decide_eq_true h)

/-- The order-file sort key comparison is transitive. -/
theorem varOrderLe_trans (order : List Str) (a b c : ConVar) :
    varOrderLe order a b = true → varOrderLe order b c = true →
    varOrderLe order a c = true := by
  unfold varOrderLe
  rcases h1 : rankOf order a.path with _ | i <;>
    rcases h2 : rankOf order b.path with _ | j <;>
    rcases h3 : rankOf order c.path with _ | l <;>
    intro hab hbc
  · exact strLe_trans _ _ _ hab hbc
  · exact absurd hbc (by simp)
  · exact absurd hab (by simp)
  · exact absurd hab (by simp)
  · rfl
  · exact absurd hbc (by simp)
  · rfl
  · exact decide_eq_true (le_trans (of_decide_eq_true hab) (of_decide_eq_true hbc))

/-- Reading of the sort key comparison: known ranks ordered, known
before unknown, unknown alphabetical. -/
theorem varOrderLe_cases (order : List Str) (a b : ConVar)
    (h : varOrderLe order a b = true) :
    (match rankOf order a.path, rankOf order b.path with
      | some i, some j => i ≤ j
      | some _, none => True
      | none, some _ => False
      | none, none => strLe a.path b.path = true) := by
  unfold varOrderLe at h
  rcases h1 : rankOf order a.path with _ | i <;>
    rcases h2 : rankOf order b.path with _ | j <;>
    rw [h1, h2] at h
  · exact h
  · exact absurd h (by simp)
  · trivial
  · exact of_decide_eq_true h

/-- C7: When the canonical ordering file supplies at least one path, the
rows written by `write_txt_file` are a permutation of its input in which
paths known to the ordering file come first, ordered by their file
rank, and all unknown paths follow them in ascending alphabetical
(code-point) order. -/
theorem C7_order_file_row_ordering (orderLines : List Str) (vars : List ConVar)
    (h : load_variable_order orderLines ≠ []) :
    (writeSortedVars orderLines vars).Perm vars ∧
    List.Pairwise
      (fun a b =>
        match rankOf (load_variable_order orderLines) a.path,
              rankOf (load_variable_order orderLines) b.path with
        | some i, some j => i ≤ j
        | some _, none => True
        | none, some _ => False
        | none, none => strLe a.path b.path = true)
      (writeSortedVars orderLines vars) := by
  unfold writeSortedVars
  rw [if_neg h]
  constructor
  · exact List.perm_insertionSort _ _
  · haveI : IsTotal ConVar
        (fun a b => varOrderLe (load_variable_order orderLines) a b = true) :=
      ⟨varOrderLe_total _⟩
    haveI : IsTrans ConVar
        (fun a b => varOrderLe (load_variable_order orderLines) a b = true) :=
      ⟨varOrderLe_trans _⟩
    exact (List.sorted_insertionSort _ vars).imp (varOrderLe_cases _ _ _)

/-- Witness for C7: order file ranks "B" before "A"; input rows "A",
"C", "B" (with "C" unknown to the order file). -/
theorem C7_order_file_row_ordering_witness :
    load_variable_order ["B : 1".data, "A : 1".data] ≠ [] ∧
    ((writeSortedVars ["B : 1".data, "A : 1".data]
        [⟨['A'], ['1'], [], [], [], []⟩, ⟨['C'], ['2'], [], [], [], []⟩,
          ⟨['B'], ['3'], [], [], [], []⟩]).Perm
      [⟨['A'], ['1'], [], [], [], []⟩, ⟨['C'], ['2'], [], [], [], []⟩,
        ⟨['B'], ['3'], [], [], [], []⟩] ∧
    List.Pairwise
      (fun a b =>
        match rankOf (load_variable_order ["B : 1".data, "A : 1".data]) a.path,
              rankOf (load_variable_order ["B : 1".data, "A : 1".data]) b.path with
        | some i, some j => i ≤ j
        | some _, none => True
        | none, some _ => False
        | none, none => strLe a.path b.path = true)
      (writeSortedVars ["B : 1".data, "A : 1".data]
        [⟨['A'], ['1'], [], [], [], []⟩, ⟨['C'], ['2'], [], [], [], []⟩,
          ⟨['B'], ['3'], [], [], [], []⟩])) :=
  ⟨by decide,
    C7_order_file_row_ordering ["B : 1".data, "A : 1".data]
      [⟨['A'], ['1'], [], [], [], []⟩, ⟨['C'], ['2'], [], [], [], []⟩,
        ⟨['B'], ['3'], [], [], [], []⟩] (by decide)⟩

/-- Each comparison tuple of `build_comparisons` carries the key it was
built for as its name. -/
theorem compEntry_name (n : Str) (v1 v2 : Option ℚ) (note : Str) :
    (compEntry n v1 v2 note).name = n := by
  unfold compEntry
  split <;> rfl

/-- The variable column of `compare_dicts` lists exactly the sorted key
union. -/
theorem compare_dicts_map_varName (d1 d2 : List (Str × VarRec))
    (abs_tol rel_tol : ℚ) :
    (compare_dicts d1 d2 abs_tol rel_tol).map Row.varName = compareKeys d1 d2 := by
  unfold compare_dicts
  rw [List.map_map]
  exact (List.map_congr_left
    (fun k _ => compareRow_varName d1 d2 abs_tol rel_tol k)).trans (List.map_id _)

/-- C2: The set of row paths produced by the comparator equals the union
of the two mappings' key sets, and every path appears in exactly one
row.  This holds unconditionally for `compare_dicts`, and for
`build_comparisons` whenever the 2-vs-1 absorbent split rule does not
fire (when it fires, the two summed keys are consumed and omitted —
see the counterexample). -/
theorem C2_row_paths_equal_key_union :
    (∀ (d1 d2 : List (Str × VarRec)) (abs_tol rel_tol : ℚ),
      ((compare_dicts d1 d2 abs_tol rel_tol).map Row.varName).Nodup ∧
      ∀ k : Str, k ∈ (compare_dicts d1 d2 abs_tol rel_tol).map Row.varName ↔
        (k ∈ dictKeys d1 ∨ k ∈ dictKeys d2)) ∧
    (∀ d1 d2 : List (Str × ℚ),
      match_and_sum_absorbents d1 d2 (1 / 10 ^ 8) = ([], [], []) →
      ((build_comparisons d1 d2).map CompRow.name).Nodup ∧
      ∀ k : Str, k ∈ (build_comparisons d1 d2).map CompRow.name ↔
        (k ∈ dictKeys d1 ∨ k ∈ dictKeys d2)) := by
  constructor
  · intro d1 d2 abs_tol rel_tol
    rw [compare_dicts_map_varName]
    have hperm : (compareKeys d1 d2).Perm ((dictKeys d1 ++ dictKeys d2).dedup) :=
      List.perm_insertionSort _ _
    constructor
    · exact hperm.nodup_iff.mpr (List.nodup_dedup _)
    · intro k
      rw [hperm.mem_iff, List.mem_dedup, List.mem_append]
  · intro d1 d2 hms
    have hrows : build_comparisons d1 d2 =
        List.insertionSort (fun a b => compSortKey b ≤ compSortKey a)
          (((dictKeys d1 ++ dictKeys d2).dedup).map
            (fun k => compEntry k (alookup d1 k) (alookup d2 k) [])) := by
      unfold build_comparisons
      rw [hms]
      dsimp only
      have hf : List.filter (fun k => !(List.contains [] k || List.contains [] k))
          ((dictKeys d1 ++ dictKeys d2).dedup) = (dictKeys d1 ++ dictKeys d2).dedup :=
        List.filter_eq_self.mpr (fun a _ => rfl)
      rw [hf]
      rfl
    rw [hrows]
    have hperm := List.perm_insertionSort
      (fun a b => compSortKey b ≤ compSortKey a)
      (((dictKeys d1 ++ dictKeys d2).dedup).map
        (fun k => compEntry k (alookup d1 k) (alookup d2 k) []))
    have hpermName := hperm.map CompRow.name
    have hmap : ((((dictKeys d1 ++ dictKeys d2).dedup).map
        (fun k => compEntry k (alookup d1 k) (alookup d2 k) [])).map CompRow.name)
        = (dictKeys d1 ++ dictKeys d2).dedup := by
      rw [List.map_map]
      exact (List.map_congr_left
        (fun k _ => compEntry_name k (alookup d1 k) (alookup d2 k) [])).trans
        (List.map_id _)
    rw [hmap] at hpermName
    constructor
    · exact hpermName.nodup_iff.mpr (List.nodup_dedup _)
    · intro k
      rw [hpermName.mem_iff, List.mem_dedup, List.mem_append]

/-- Witness for C2: distinct singleton dicts on each side, where the
split rule does not fire. -/
theorem C2_row_paths_equal_key_union_witness :
    ((compare_dicts [(['a'], ⟨['1'], some 1, [], [], [], [], 1⟩)]
        [(['b'], ⟨['2'], some 2, [], [], [], [], 1⟩)]
        abs_tol_default rel_tol_default).map Row.varName).Nodup ∧
    match_and_sum_absorbents [(['a'], 1)] [(['b'], 2)] (1 / 10 ^ 8)
      = ([], [], []) ∧
    (['a'] ∈ (build_comparisons [(['a'], 1)] [(['b'], 2)]).map CompRow.name ↔
      (['a'] ∈ dictKeys [(['a'], (1 : ℚ))] ∨ ['a'] ∈ dictKeys [(['b'], (2 : ℚ))])) :=
  ⟨(C2_row_paths_equal_key_union.1
      [(['a'], ⟨['1'], some 1, [], [], [], [], 1⟩)]
      [(['b'], ⟨['2'], some 2, [], [], [], [], 1⟩)]
      abs_tol_default rel_tol_default).1,
    by decide,
    (C2_row_paths_equal_key_union.2 [(['a'], 1)] [(['b'], 2)] (by decide)).2 ['a']⟩

/-- C2, counterexample: when the absorbent split rule fires, the two
summed keys are dropped from the rows: with left
`{ABSORBENT_1: 2, ABSORBENT_2: 3}` and right `{ABSORBENT: 5}`, the key
`ABSORBENT_1` is in the key union but in no comparison row, so the row
path set is a strict subset of the union, refuting the claim as
stated. -/
theorem C2_counterexample_absorbent_consumption :
    "ABSORBENT_1".data
      ∈ dictKeys [("ABSORBENT_1".data, (2 : ℚ)), ("ABSORBENT_2".data, 3)] ∧
    "ABSORBENT_1".data
      ∉ (build_comparisons [("ABSORBENT_1".data, 2), ("ABSORBENT_2".data, 3)]
          [("ABSORBENT".data, 5)]).map CompRow.name := by
  decide

/-- Evaluation of `match_and_sum_absorbents` when the first dict holds
exactly two absorbent keys, the second exactly one, and the sum check
passes: one pre-mapped entry under the single key, all three keys
consumed. -/
theorem match_and_sum_fires
    (d1 d2 : List (Str × ℚ)) (k1 k2 ko : Str) (v1 v2 w : ℚ)
    (h1 : (dictKeys d1).filter is_absorbent_key = [k1, k2])
    (h2 : (dictKeys d2).filter is_absorbent_key = [ko])
    (hv1 : alookup d1 k1 = some v1) (hv2 : alookup d1 k2 = some v2)
    (hw : alookup d2 ko = some w)
    (hclose : isclose (v1 + v2) w (1 / 10 ^ 8) (1 / 10 ^ 8) = true) :
    match_and_sum_absorbents d1 d2 (1 / 10 ^ 8) =
      ([(ko, (some (v1 + v2), some w,
        "sum of two absorbents in file1 vs single in file2".data))],
        [k1, k2], [ko]) := by
  unfold match_and_sum_absorbents
  dsimp only
  rw [h1, h2]
  dsimp only
  rw [hv1, hv2, hw]
  dsimp only [Option.getD_some]
  rw [if_pos hclose]
  simp

/-- A permutation preserves occurrence counts (stated for the ambient
`BEq` instance). -/
theorem perm_count_beq {α : Type} [BEq α] {l₁ l₂ : List α} (h : l₁.Perm l₂)
    (a : α) : List.count a l₁ = List.count a l₂ :=
  h.countP_eq _

/-- C3, counterexample: the split rule matches only keys containing the
substring `ABSORBENT`, so the claim's example
`left = {A(1): 2, A(2): 3}, right = {A: 5}` does not fire it: the
output has three rows (one per key), including a row for `A(1)` —
not a single row for `A` — refuting the claim as stated. -/
theorem C3_counterexample_split_rule_needs_absorbent_keys :
    (build_comparisons [("A(1)".data, 2), ("A(2)".data, 3)] [("A".data, 5)]).length
      = 3 ∧
    "A(1)".data ∈ (build_comparisons [("A(1)".data, 2), ("A(2)".data, 3)]
        [("A".data, 5)]).map CompRow.name := by
  decide

/-- C3, amended: when one mapping holds exactly two keys containing the
substring `ABSORBENT` and the other exactly one, and the sum of the two
matches the single value under `math.isclose` (rel_tol 1e-8, abs_tol
1e-8 — not the ordinary comparator's tolerance rule), the comparator
emits exactly one row under the aggregate key, comparing the sum
against the single value, and consumes all three keys so neither summed
key appears as a row; the row carries `v1 = sum`, `v2 = single`,
`abs_diff = sum - single` (for the claim's values 2.0 + 3.0 vs 5.0 the
two sides are both 5.0 and the diffs are zero — see the witness). -/
theorem C3_amended_absorbent_split
    (d1 d2 : List (Str × ℚ)) (k1 k2 ko : Str) (v1 v2 w : ℚ)
    (h1 : (dictKeys d1).filter is_absorbent_key = [k1, k2])
    (h2 : (dictKeys d2).filter is_absorbent_key = [ko])
    (hv1 : alookup d1 k1 = some v1) (hv2 : alookup d1 k2 = some v2)
    (hw : alookup d2 ko = some w)
    (hclose : isclose (v1 + v2) w (1 / 10 ^ 8) (1 / 10 ^ 8) = true)
    (hk1 : k1 ≠ ko) (hk2 : k2 ≠ ko) :
    ((build_comparisons d1 d2).map CompRow.name).count ko = 1 ∧
    k1 ∉ (build_comparisons d1 d2).map CompRow.name ∧
    k2 ∉ (build_comparisons d1 d2).map CompRow.name ∧
    (∃ row ∈ build_comparisons d1 d2,
      row.name = ko ∧ row.v1 = some (v1 + v2) ∧ row.v2 = some w ∧
      row.abs_diff = some (v1 + v2 - w)) := by
  have hms := match_and_sum_fires d1 d2 k1 k2 ko v1 v2 w h1 h2 hv1 hv2 hw hclose
  have hrows : build_comparisons d1 d2 =
      List.insertionSort (fun a b => compSortKey b ≤ compSortKey a)
        (compEntry ko (some (v1 + v2)) (some w)
            "sum of two absorbents in file1 vs single in file2".data ::
          (((dictKeys d1 ++ dictKeys d2).dedup).filter
              (fun k => !(List.contains [k1, k2] k || List.contains [ko] k))).map
            (fun k => compEntry k (alookup d1 k) (alookup d2 k) [])) := by
    unfold build_comparisons
    rw [hms]
    rfl
  have hperm := List.perm_insertionSort
    (fun a b => compSortKey b ≤ compSortKey a)
    (compEntry ko (some (v1 + v2)) (some w)
        "sum of two absorbents in file1 vs single in file2".data ::
      (((dictKeys d1 ++ dictKeys d2).dedup).filter
          (fun k => !(List.contains [k1, k2] k || List.contains [ko] k))).map
        (fun k => compEntry k (alookup d1 k) (alookup d2 k) []))
  have hpermName := hperm.map CompRow.name
  have hmapname :
      ((compEntry ko (some (v1 + v2)) (some w)
          "sum of two absorbents in file1 vs single in file2".data ::
        (((dictKeys d1 ++ dictKeys d2).dedup).filter
            (fun k => !(List.contains [k1, k2] k || List.contains [ko] k))).map
          (fun k => compEntry k (alookup d1 k) (alookup d2 k) [])).map CompRow.name)
      = ko :: ((dictKeys d1 ++ dictKeys d2).dedup).filter
          (fun k => !(List.contains [k1, k2] k || List.contains [ko] k)) := by
    rw [List.map_cons, compEntry_name, List.map_map]
    exact congrArg (List.cons ko)
      ((List.map_congr_left (fun k _ => compEntry_name k _ _ _)).trans (List.map_id _))
  rw [hmapname] at hpermName
  have hko : ko ∉ ((dictKeys d1 ++ dictKeys d2).dedup).filter
      (fun k => !(List.contains [k1, k2] k || List.contains [ko] k)) := by
    intro hmem
    have hp := (List.mem_filter.mp hmem).2
    simp at hp
  have hk1f : k1 ∉ ((dictKeys d1 ++ dictKeys d2).dedup).filter
      (fun k => !(List.contains [k1, k2] k || List.contains [ko] k)) := by
    intro hmem
    have hp := (List.mem_filter.mp hmem).2
    simp at hp
  have hk2f : k2 ∉ ((dictKeys d1 ++ dictKeys d2).dedup).filter
      (fun k => !(List.contains [k1, k2] k || List.contains [ko] k)) := by
    intro hmem
    have hp := (List.mem_filter.mp hmem).2
    simp at hp
  refine ⟨?_, ?_, ?_, ?_⟩
  · rw [hrows, perm_count_beq hpermName]
    rw [List.count_cons_self, List.count_eq_zero.mpr hko]
  · rw [hrows]
    intro hmem
    rcases List.mem_cons.mp (hpermName.mem_iff.mp hmem) with h | h
    · exact hk1 h
    · exact hk1f h
  · rw [hrows]
    intro hmem
    rcases List.mem_cons.mp (hpermName.mem_iff.mp hmem) with h | h
    · exact hk2 h
    · exact hk2f h
  · refine ⟨compEntry ko (some (v1 + v2)) (some w)
      "sum of two absorbents in file1 vs single in file2".data, ?_, rfl, rfl, rfl, rfl⟩
    rw [hrows]
    exact hperm.mem_iff.mpr (List.mem_cons_self _ _)

/-- Witness for C3 (amended): the claim's values on absorbent keys —
left `{ABSORBENT_1: 2, ABSORBENT_2: 3}`, right `{ABSORBENT: 5}` — give
exactly one row, for `ABSORBENT`, and no row for either summed key. -/
theorem C3_amended_absorbent_split_witness :
    (dictKeys [("ABSORBENT_1".data, (2 : ℚ)), ("ABSORBENT_2".data, 3)]).filter
        is_absorbent_key = ["ABSORBENT_1".data, "ABSORBENT_2".data] ∧
    ((build_comparisons [("ABSORBENT_1".data, 2), ("ABSORBENT_2".data, 3)]
        [("ABSORBENT".data, 5)]).map CompRow.name).count "ABSORBENT".data = 1 ∧
    "ABSORBENT_1".data ∉ (build_comparisons
        [("ABSORBENT_1".data, 2), ("ABSORBENT_2".data, 3)]
        [("ABSORBENT".data, 5)]).map CompRow.name := by
  have h := C3_amended_absorbent_split
    [("ABSORBENT_1".data, 2), ("ABSORBENT_2".data, 3)] [("ABSORBENT".data, 5)]
    "ABSORBENT_1".data "ABSORBENT_2".data "ABSORBENT".data 2 3 5
    (by decide) (by decide) (by decide) (by decide) (by decide)
    (by decide) (by decide) (by decide)
  exact ⟨by decide, h.1, h.2.1⟩
